import Mathlib

/-!
Verification of the MongoDB fetch provider
(`src/opal_fetcher_mongodb/provider.py`).

The development shallowly embeds the provider's core pipeline:
the configuration model (`MongoDBFetcherConfig` and its nested parameter
objects), the fetch dispatch `_fetch_`, and the result transform
`_process_`.  Documents are modelled as insertion-ordered association
lists with Python-dict assignment semantics; the data-source client
(motor/pymongo) is abstracted as the outcome it produces for each of the
three query modes.  Exceptions are modelled with `Except`, log output as
an explicit list of messages.
-/

set_option maxRecDepth 4096

namespace OpalFetcherMongoDB

/-- JSON-like scalar values stored in documents.  Document values can be
used as dictionary keys by the mapKey transform, so equality is decidable. -/
inductive Value where
  | vint : Int → Value
  | vstr : String → Value
  | vbool : Bool → Value
  | vnull : Value
deriving DecidableEq, Repr

/-- A Python dict: an insertion-ordered list of key/value pairs with
unique keys maintained by the assignment operation. -/
abbrev PyDict (K V : Type) := List (K × V)

/-- A MongoDB document: a dict with string keys. -/
abbrev Doc := PyDict String Value

/-- Python dict lookup `d[k]` (as an `Option`): first pair with the key. -/
def dictGet {K V : Type} [DecidableEq K] : PyDict K V → K → Option V
  | [], _ => none
  | p :: ps, k => if p.1 = k then some p.2 else dictGet ps k

/-- Python dict assignment `d[k] = v`: replace the value of the key in
place if present (keys of a dict are unique), else append, preserving
insertion order. -/
def dictSet {K V : Type} [DecidableEq K] : PyDict K V → K → V → PyDict K V
  | [], k, v => [(k, v)]
  | p :: ps, k, v => if p.1 = k then (k, v) :: ps else p :: dictSet ps k v

/-- Python `d.update(other)`: assign each pair of `other` in order. -/
def dictUpdate {K V : Type} [DecidableEq K] (d other : PyDict K V) : PyDict K V :=
  other.foldl (fun acc p => dictSet acc p.1 p.2) d

/-- A dict is well formed when its keys are unique, which Python
guarantees for every real dict. -/
def DictWF {K V : Type} (d : PyDict K V) : Prop := (d.map Prod.fst).Nodup

instance {K V : Type} [DecidableEq K] (d : PyDict K V) : Decidable (DictWF d) := by
  unfold DictWF; infer_instance

/-- Exceptions that can reach the provider: `pymongo.errors.OperationFailure`
(a query rejected by the server), a connectivity/transient client fault,
and Python `KeyError` (raised by `record[mapKey]` in `_process_`). -/
inductive ExcKind where
  | operationFailure : String → ExcKind
  | connectionFailure : String → ExcKind
  | keyError : String → ExcKind
deriving DecidableEq, Repr

/-- The exception's Python type name, used in the logged message. -/
def excTypeName : ExcKind → String
  | .operationFailure _ => "OperationFailure"
  | .connectionFailure _ => "ConnectionFailure"
  | .keyError _ => "KeyError"

/-- The exception's argument, used in the logged message. -/
def excArg : ExcKind → String
  | .operationFailure s => s
  | .connectionFailure s => s
  | .keyError s => s

/-- The message built by the provider's exception template
("An exception of type ... occurred. Arguments: ..."). -/
def excMessage (e : ExcKind) : String :=
  "An exception of type " ++ excTypeName e ++ " occurred. Arguments: " ++ excArg e

/-- Is the exception a `pymongo.errors.OperationFailure`? -/
def isOperationFailure : ExcKind → Bool
  | .operationFailure _ => true
  | _ => false

/-- One log line emitted through `opal_common.logger`. -/
inductive LogMsg where
  | debug : String → LogMsg
  | warning : String → LogMsg
  | error : String → LogMsg
deriving DecidableEq, Repr

/-- Params of a findOne query (`MongoDBFindOneParams`). -/
structure MongoDBFindOneParams where
  query : Option Doc := none
  projection : Option Doc := none
  options : Option Doc := none
deriving DecidableEq, Repr

/-- Params of a find query (`MongoDBFindParams`). -/
structure MongoDBFindParams where
  query : Option Doc := none
  projection : Option Doc := none
  options : Option Doc := none
deriving DecidableEq, Repr

/-- Params of an aggregation pipeline (`MongoDBAggregateParams`). -/
structure MongoDBAggregateParams where
  pipeline : Option (List Doc) := none
  options : Option Doc := none
deriving DecidableEq, Repr

/-- Transform params (`MongoDBTransformParams`).  Each field is optional
at the configuration level; pydantic defaults `first`/`merge` to `False`
and `mapKey` to `None`, and an explicit null is also accepted. -/
structure MongoDBTransformParams where
  first : Option Bool := some false
  mapKey : Option String := none
  merge : Option Bool := some false
deriving DecidableEq, Repr

/-- The fetcher config (`MongoDBFetcherConfig`). -/
structure MongoDBFetcherConfig where
  fetcher : String := "MongoDBFetchProvider"
  database : Option String := none
  collection : String
  findOne : Option MongoDBFindOneParams := none
  find : Option MongoDBFindParams := none
  aggregate : Option MongoDBAggregateParams := none
  transform : Option MongoDBTransformParams := none
deriving DecidableEq, Repr

/-- The data-source client (motor `AsyncIOMotorClient` collection handle),
abstracted as the outcome each query mode would produce for the configured
query: a found document or none for `find_one`, the full cursor contents
in cursor order for `find` and `aggregate`, or a raised exception. -/
structure MongoClient where
  findOneResult : Except ExcKind (Option Doc)
  findResult : Except ExcKind (List Doc)
  aggregateResult : Except ExcKind (List Doc)

/-- The `first` flag as computed in `_fetch_`/`_process_` (lines 185-190,
331-336): transform absent or `first` null both count as `False`. -/
def firstOption (cfg : MongoDBFetcherConfig) : Bool :=
  match cfg.transform with
  | none => false
  | some t => match t.first with
    | none => false
    | some b => b

/-- The `merge` flag as computed in `_process_` (lines 345-350). -/
def mergeOption (cfg : MongoDBFetcherConfig) : Bool :=
  match cfg.transform with
  | none => false
  | some t => match t.merge with
    | none => false
    | some b => b

/-- The `mapKey` option as computed in `_process_` (lines 339-342). -/
def mapKeyOption (cfg : MongoDBFetcherConfig) : Option String :=
  match cfg.transform with
  | none => none
  | some t => t.mapKey

/-- The count of populated query variants (`_fetch_` lines 162-168). -/
def definedQueries (cfg : MongoDBFetcherConfig) : Nat :=
  (if cfg.findOne.isSome then 1 else 0) +
  (if cfg.find.isSome then 1 else 0) +
  (if cfg.aggregate.isSome then 1 else 0)

/-- Warning for a wholly absent config (`_fetch_` lines 155-159). -/
def warnIncomplete : String :=
  "incomplete fetcher config: MongoDB data entries require a query to specify what data to fetch!"

/-- Warning for zero or multiple query variants (`_fetch_` lines 170-174). -/
def warnMalformed : String :=
  "malformed fetcher config: MongoDB data entries requires one of findOne, find or aggregate to be defined!"

/-- The findOne branch of `_fetch_` (lines 192-226): run `find_one`, wrap
the document in a one-element list or return the empty list, and on any
exception log the operation name and the message and re-raise it. -/
def findOneBranch (client : MongoClient) :
    List LogMsg × Except ExcKind (List Doc) :=
  match client.findOneResult with
  | .ok none => ([.debug "MongoDBFetchProvider executing findOne query"], .ok [])
  | .ok (some document) =>
      ([.debug "MongoDBFetchProvider executing findOne query"], .ok [document])
  | .error e =>
      ([.debug "MongoDBFetchProvider executing findOne query",
        .error "MongoDBFetchProvider error executing findOne query",
        .error (excMessage e)], .error e)

/-- The find branch of `_fetch_` (lines 228-273): when `first` is true,
materialize only the first cursor element (`cursor.to_list(length=1)`),
otherwise drain the cursor; on any exception log and re-raise. -/
def findBranch (first : Bool) (client : MongoClient) :
    List LogMsg × Except ExcKind (List Doc) :=
  match client.findResult with
  | .ok documents =>
      if first then
        ([.debug "MongoDBFetchProvider executing find query",
          .debug "MongoDBFetchProvider fetching first document of find query"],
         .ok (documents.take 1))
      else
        ([.debug "MongoDBFetchProvider executing find query",
          .debug "MongoDBFetchProvider iterating documents of find query"],
         .ok documents)
  | .error e =>
      ([.debug "MongoDBFetchProvider executing find query",
        .debug (if first then "MongoDBFetchProvider fetching first document of find query"
                else "MongoDBFetchProvider iterating documents of find query"),
        .error "MongoDBFetchProvider error executing find query",
        .error (excMessage e)], .error e)

/-- The aggregate branch of `_fetch_` (lines 275-315): same shape as the
find branch, over the aggregation cursor. -/
def aggregateBranch (first : Bool) (client : MongoClient) :
    List LogMsg × Except ExcKind (List Doc) :=
  match client.aggregateResult with
  | .ok documents =>
      if first then
        ([.debug "MongoDBFetchProvider executing aggregation pipeline",
          .debug "MongoDBFetchProvider fetching first document of aggregation pipeline"],
         .ok (documents.take 1))
      else
        ([.debug "MongoDBFetchProvider executing aggregation pipeline",
          .debug "MongoDBFetchProvider iterating documents of aggregation pipeline"],
         .ok documents)
  | .error e =>
      ([.debug "MongoDBFetchProvider executing aggregation pipeline",
        .debug (if first then "MongoDBFetchProvider fetching first document of aggregation pipeline"
                else "MongoDBFetchProvider iterating documents of aggregation pipeline"),
        .error "MongoDBFetchProvider error executing aggregation pipeline",
        .error (excMessage e)], .error e)

/-- `MongoDBFetchProvider._fetch_` (lines 152-315): warn and return the
empty list when the config is absent or does not select exactly one query
mode; otherwise dispatch to the selected branch in source order. -/
def fetch_ (config : Option MongoDBFetcherConfig) (client : MongoClient) :
    List LogMsg × Except ExcKind (List Doc) :=
  match config with
  | none => ([.warning warnIncomplete], .ok [])
  | some cfg =>
    if definedQueries cfg ≠ 1 then
      ([.warning warnMalformed], .ok [])
    else if cfg.findOne.isSome then
      findOneBranch client
    else if cfg.find.isSome then
      findBranch (firstOption cfg) client
    else if cfg.aggregate.isSome then
      aggregateBranch (firstOption cfg) client
    else
      -- unreachable: definedQueries cfg = 1 forces one variant to be set
      ([], .ok [])

/-- The value `_process_` hands to the policy store: a single document, a
mapping keyed by document values (the mapKey transform), or an ordered
sequence of documents. -/
inductive Output where
  | doc : Doc → Output
  | keyed : PyDict Value Doc → Output
  | docs : List Doc → Output
deriving DecidableEq, Repr

/-- The merge fold of `_process_` (lines 360-368): start from the empty
dict and `update` with each record in sequence order. -/
def mergeRecords (records : List Doc) : Doc :=
  records.foldl (fun document record => dictUpdate document record) []

/-- The mapKey loop of `_process_` (lines 370-378):
`document[record[mapKey]] = dict(record)` for each record, raising
`KeyError` when a record lacks the field. -/
def mapKeyLoop (key : String) : PyDict Value Doc → List Doc →
    Except ExcKind (PyDict Value Doc)
  | document, [] => .ok document
  | document, record :: rest =>
    match dictGet record key with
    | some v => mapKeyLoop key (dictSet document v record) rest
    | none => .error (.keyError key)

/-- The mapKey transform on a whole record list. -/
def mapKeyRecords (key : String) (records : List Doc) :
    Except ExcKind (PyDict Value Doc) :=
  mapKeyLoop key [] records

/-- `MongoDBFetchProvider._process_` (lines 317-393): collapse findOne
results to a single document, otherwise apply the transform with the
precedence first, merge, mapKey, default; on an exception log and
re-raise it. -/
def process_ (cfg : MongoDBFetcherConfig) (records : List Doc) :
    List LogMsg × Except ExcKind Output :=
  if cfg.findOne.isSome then
    match records with
    | [] => ([], .ok (.doc []))
    | record :: _ => ([], .ok (.doc record))
  else if firstOption cfg then
    match records with
    | [] => ([], .ok (.doc []))
    | record :: _ => ([], .ok (.doc record))
  else if mergeOption cfg then
    ([], .ok (.doc (mergeRecords records)))
  else
    match mapKeyOption cfg with
    | some key =>
      match mapKeyRecords key records with
      | .ok document => ([], .ok (.keyed document))
      | .error e =>
          ([.error "MongoDBFetchProvider error processing records",
            .error (excMessage e)], .error e)
    | none => ([], .ok (.docs records))

/-- One whole fetch invocation as driven by the OPAL engine: `_fetch_`
followed by `_process_` on its records (the constructor replaces an absent
config by a default before `_process_` can run, so `_process_` always sees
a config). -/
def fetchAndProcess (cfg : MongoDBFetcherConfig) (client : MongoClient) :
    List LogMsg × Except ExcKind Output :=
  match fetch_ (some cfg) client with
  | (logs, .error e) => (logs, .error e)
  | (logs, .ok records) =>
    let pr := process_ cfg records
    (logs ++ pr.1, pr.2)

/-- Retry policy declaration: which exceptions the engine should retry,
how many attempts, and whether the original exception is re-raised at the
end. -/
structure RetryConfig where
  stopAfterAttempt : Nat
  retryOn : ExcKind → Bool
  reraise : Bool

/-- `MongoDBFetchProvider.RETRY_CONFIG` (lines 103-110): tenacity is
configured with `retry_unless_exception_type(OperationFailure)` — retry
every exception that is not an `OperationFailure` — ten attempts, and
`reraise=True`. -/
def RETRY_CONFIG : RetryConfig :=
  { stopAfterAttempt := 10
    retryOn := fun e => !(isOperationFailure e)
    reraise := true }

/-! ### Specification-side descriptions of the folds -/

/-- The value the spec assigns to a key after a merge: the value at that
key in the last document of the sequence that contains the key. -/
def lastValueAt (records : List Doc) (k : String) : Option Value :=
  match records.reverse.find? (fun r => (dictGet r k).isSome) with
  | some r => dictGet r k
  | none => none

/-- The document the spec assigns to a mapKey key value: the last document
in the sequence whose value at the named field is `v`. -/
def lastRecordKeyedBy (key : String) (records : List Doc) (v : Value) : Option Doc :=
  (records.reverse).find? (fun r => decide (dictGet r key = some v))

/-! ### Concrete inputs used to exercise the theorems -/

/-- A sample document. -/
def sampleDoc : Doc := [("id", Value.vstr "x"), ("v", Value.vint 1)]

/-- Another sample document. -/
def sampleDoc2 : Doc := [("id", Value.vstr "y"), ("v", Value.vint 2)]

/-- First document of the spec's merge example. -/
def mergeDocA : Doc := [("a", Value.vint 1), ("b", Value.vint 2)]

/-- Second document of the spec's merge example. -/
def mergeDocB : Doc := [("b", Value.vint 3), ("c", Value.vint 4)]

/-- A client whose queries succeed with sample documents. -/
def sampleClient : MongoClient :=
  { findOneResult := .ok (some sampleDoc)
    findResult := .ok [sampleDoc, sampleDoc2]
    aggregateResult := .ok [sampleDoc, sampleDoc2] }

/-- A client whose queries find nothing. -/
def emptyClient : MongoClient :=
  { findOneResult := .ok none
    findResult := .ok []
    aggregateResult := .ok [] }

/-- A client whose queries raise. -/
def failingClient : MongoClient :=
  { findOneResult := .error (.connectionFailure "connection reset")
    findResult := .error (.operationFailure "invalid pipeline stage")
    aggregateResult := .error (.connectionFailure "connection reset") }

/-- A config selecting only findOne. -/
def cfgFindOne : MongoDBFetcherConfig := { collection := "users", findOne := some {} }

/-- A config selecting find with `transform.first = true`. -/
def cfgFindFirst : MongoDBFetcherConfig :=
  { collection := "users", find := some {}, transform := some { first := some true } }

/-- A config selecting aggregate with `transform.first = true`. -/
def cfgAggFirst : MongoDBFetcherConfig :=
  { collection := "users", aggregate := some {}, transform := some { first := some true } }

/-- A config selecting find with `transform.merge = true`. -/
def cfgMerge : MongoDBFetcherConfig :=
  { collection := "users", find := some {}, transform := some { merge := some true } }

/-- A config selecting find with `transform.mapKey = "id"`. -/
def cfgMapKey : MongoDBFetcherConfig :=
  { collection := "users", find := some {}, transform := some { mapKey := some "id" } }

/-- A config selecting find with the default transform. -/
def cfgDefault : MongoDBFetcherConfig := { collection := "users", find := some {} }

/-- A config with all three transform flags set at once. -/
def cfgAllFlags : MongoDBFetcherConfig :=
  { collection := "users", find := some {},
    transform := some { first := some true, mapKey := some "id", merge := some true } }

/-- A malformed config selecting two query modes at once. -/
def cfgMalformed : MongoDBFetcherConfig :=
  { collection := "users", findOne := some {}, find := some {} }

/-! ### Dictionary lemmas -/

theorem dictGet_dictSet {K V : Type} [DecidableEq K] (d : PyDict K V) (k k' : K) (v : V) :
    dictGet (dictSet d k v) k' = if k' = k then some v else dictGet d k' := by
  induction d with
  | nil =>
    by_cases h : k' = k
    · simp [dictSet, dictGet, h]
    · simp [dictSet, dictGet, h, Ne.symm h]
  | cons p ps ih =>
    by_cases hp : p.1 = k
    · by_cases h : k' = k
      · simp [dictSet, dictGet, hp, h]
      · have h1 : k ≠ k' := fun hh => h hh.symm
        have h2 : p.1 ≠ k' := fun hh => h1 (hp.symm.trans hh)
        simp [dictSet, dictGet, hp, h, h1, h2]
    · by_cases h : p.1 = k'
      · have hk : k' ≠ k := fun hh => hp (hh ▸ h)
        simp [dictSet, dictGet, hp, h, hk]
      · simp [dictSet, dictGet, hp, h, ih]

theorem dictGet_eq_none {K V : Type} [DecidableEq K] (d : PyDict K V) (k : K)
    (h : k ∉ d.map Prod.fst) : dictGet d k = none := by
  induction d with
  | nil => rfl
  | cons p ps ih =>
    simp only [List.map_cons, List.mem_cons] at h
    push_neg at h
    simp [dictGet, Ne.symm h.1, ih h.2]

theorem dictGet_dictUpdate {K V : Type} [DecidableEq K] (other : PyDict K V)
    (hwf : DictWF other) (d : PyDict K V) (k : K) :
    dictGet (dictUpdate d other) k =
      match dictGet other k with
      | some v => some v
      | none => dictGet d k := by
  induction other generalizing d with
  | nil => rfl
  | cons p ps ih =>
    have hcons := List.nodup_cons.mp hwf
    have hstep : dictUpdate d (p :: ps) = dictUpdate (dictSet d p.1 p.2) ps := rfl
    rw [hstep, ih hcons.2]
    by_cases h : p.1 = k
    · have hnone : dictGet ps k = none := dictGet_eq_none ps k (h ▸ hcons.1)
      simp [dictGet, h, hnone, dictGet_dictSet]
    · have hk : k ≠ p.1 := fun hh => h hh.symm
      simp only [dictGet, if_neg h, dictGet_dictSet, if_neg hk]

/-! ### Fold lemmas -/

theorem find?_append_singleton {α : Type} (l : List α) (a : α) (p : α → Bool) :
    (l ++ [a]).find? p = match l.find? p with
      | some r => some r
      | none => if p a then some a else none := by
  induction l with
  | nil =>
    by_cases h : p a
    · simp [List.find?, h]
    · simp [List.find?, h]
  | cons x xs ih =>
    by_cases h : p x
    · simp [List.find?_cons_of_pos _ h]
    · simp [List.find?_cons_of_neg _ h, ih]

theorem mergeRecords_append_singleton (rs : List Doc) (r : Doc) :
    mergeRecords (rs ++ [r]) = dictUpdate (mergeRecords rs) r := by
  simp [mergeRecords, List.foldl_append, dictUpdate]

/-- The merge fold realizes the spec's overwrite rule: each key ends up
with its value in the last document that contains it. -/
theorem dictGet_mergeRecords (records : List Doc) :
    (∀ r ∈ records, DictWF r) → ∀ k,
      dictGet (mergeRecords records) k = lastValueAt records k := by
  induction records using List.reverseRecOn with
  | nil => intro _ k; rfl
  | append_singleton rs r ih =>
    intro hwf k
    rw [mergeRecords_append_singleton,
      dictGet_dictUpdate r (hwf r (by simp)) (mergeRecords rs) k,
      ih (fun x hx => hwf x (by simp [hx])) k]
    unfold lastValueAt
    rw [List.reverse_append]
    cases hv : dictGet r k with
    | some v =>
      have hp : ((dictGet r k).isSome : Bool) = true := by simp [hv]
      simp [List.find?_cons_of_pos _ hp, hv]
    | none =>
      have hp : ¬ ((dictGet r k).isSome : Bool) = true := by simp [hv]
      simp [List.find?_cons_of_neg _ hp, hv]

/-- When every record contains the mapKey field, the mapKey loop succeeds
and maps each occurring key value to the last record carrying it. -/
theorem mapKeyLoop_lookup (key : String) (records : List Doc) :
    (∀ r ∈ records, (dictGet r key).isSome) →
    ∀ document : PyDict Value Doc, ∃ m,
      mapKeyLoop key document records = .ok m ∧
      ∀ v, dictGet m v =
        match lastRecordKeyedBy key records v with
        | some r => some r
        | none => dictGet document v := by
  induction records with
  | nil =>
    intro _ document
    exact ⟨document, rfl, fun v => by simp [lastRecordKeyedBy, List.find?]⟩
  | cons record rest ih =>
    intro hall document
    obtain ⟨v0, hv0⟩ := Option.isSome_iff_exists.mp (hall record (by simp))
    obtain ⟨m, hm, hlook⟩ :=
      ih (fun r hr => hall r (List.mem_cons_of_mem _ hr)) (dictSet document v0 record)
    refine ⟨m, by simp [mapKeyLoop, hv0, hm], fun v => ?_⟩
    rw [hlook v]
    unfold lastRecordKeyedBy
    rw [List.reverse_cons, find?_append_singleton]
    cases hfind : rest.reverse.find? (fun r => decide (dictGet r key = some v)) with
    | some r => simp [lastRecordKeyedBy, hfind]
    | none =>
      simp only [lastRecordKeyedBy, hfind, dictGet_dictSet, hv0]
      by_cases h : v = v0
      · simp [h]
      · have h2 : ¬ some v0 = some v := by
          intro hh; exact h (Option.some.inj hh).symm
        simp [h, h2]

/-- When some record lacks the mapKey field, the mapKey loop raises
`KeyError` carrying the field name. -/
theorem mapKeyLoop_error (key : String) (records : List Doc) :
    (∃ r ∈ records, dictGet r key = none) →
    ∀ document : PyDict Value Doc,
      mapKeyLoop key document records = .error (.keyError key) := by
  induction records with
  | nil => rintro ⟨r, hr, _⟩; exact absurd hr (List.not_mem_nil r)
  | cons record rest ih =>
    rintro ⟨r, hr, hnone⟩ document
    rcases List.mem_cons.mp hr with h | h
    · subst h; simp [mapKeyLoop, hnone]
    · cases hv : dictGet record key with
      | none => simp [mapKeyLoop, hv]
      | some v0 =>
        simp only [mapKeyLoop, hv]
        exact ih ⟨r, h, hnone⟩ _

/-! ### Claim theorems -/

/-- C9: when the fetch event's configuration object is entirely absent at
fetch time, `_fetch_` logs a warning and returns the empty sequence
without raising, whatever the data-source client would answer — so the
data source is never contacted. -/
theorem absent_config_soft_failure (client : MongoClient) :
    fetch_ none client = ([.warning warnIncomplete], .ok []) := rfl

/-- C1: when exactly one of findOne, find, aggregate is set, `_fetch_`
proceeds to exactly the selected query branch; when zero or two or more
are set, it logs a warning and returns the empty sequence without raising,
independently of the client — no query mode is executed. -/
theorem config_validator_gates_execution (cfg : MongoDBFetcherConfig)
    (client : MongoClient) :
    (definedQueries cfg ≠ 1 →
       fetch_ (some cfg) client = ([.warning warnMalformed], .ok [])) ∧
    (definedQueries cfg = 1 →
       (cfg.findOne.isSome = true →
          fetch_ (some cfg) client = findOneBranch client) ∧
       (cfg.findOne = none → cfg.find.isSome = true →
          fetch_ (some cfg) client = findBranch (firstOption cfg) client) ∧
       (cfg.findOne = none → cfg.find = none → cfg.aggregate.isSome = true →
          fetch_ (some cfg) client = aggregateBranch (firstOption cfg) client)) := by
  constructor
  · intro h
    simp [fetch_, if_pos h]
  · intro h
    refine ⟨?_, ?_, ?_⟩
    · intro h1
      simp [fetch_, h, h1]
    · intro h1 h2
      simp [fetch_, h, h1, h2]
    · intro h1 h2 h3
      simp [fetch_, h, h1, h2, h3]

/-- Applies C1 at a config with two query modes set and at a findOne-only
config. -/
theorem config_validator_gates_execution_witness :
    definedQueries cfgMalformed ≠ 1 ∧
    fetch_ (some cfgMalformed) sampleClient = ([.warning warnMalformed], .ok []) ∧
    definedQueries cfgFindOne = 1 ∧
    fetch_ (some cfgFindOne) sampleClient = findOneBranch sampleClient :=
  ⟨by decide,
   (config_validator_gates_execution cfgMalformed sampleClient).1 (by decide),
   by decide,
   ((config_validator_gates_execution cfgFindOne sampleClient).2 (by decide)).1 rfl⟩

/-- C7: with findOne unset and all transform flags unset, `_process_` is
the identity on the record sequence, preserving documents and order. -/
theorem default_transform_is_identity (cfg : MongoDBFetcherConfig)
    (records : List Doc)
    (h0 : cfg.findOne = none) (h1 : firstOption cfg = false)
    (h2 : mergeOption cfg = false) (h3 : mapKeyOption cfg = none) :
    process_ cfg records = ([], .ok (.docs records)) := by
  simp [process_, h0, h1, h2, h3]

/-- Applies C7 to the spec's two-document example. -/
theorem default_transform_is_identity_witness :
    cfgDefault.findOne = none ∧ firstOption cfgDefault = false ∧
    mergeOption cfgDefault = false ∧ mapKeyOption cfgDefault = none ∧
    process_ cfgDefault [mergeDocA, mergeDocB] =
      ([], .ok (.docs [mergeDocA, mergeDocB])) :=
  ⟨rfl, rfl, rfl, rfl,
   default_transform_is_identity cfgDefault [mergeDocA, mergeDocB] rfl rfl rfl rfl⟩

/-- C10: on the empty record sequence the merge branch yields the empty
mapping, the mapKey branch yields the empty mapping without raising, and
the default branch yields the empty sequence. -/
theorem empty_resultset_transforms (cfg : MongoDBFetcherConfig) (key : String)
    (h0 : cfg.findOne = none) (h1 : firstOption cfg = false) :
    (mergeOption cfg = true → process_ cfg [] = ([], .ok (.doc []))) ∧
    (mergeOption cfg = false → mapKeyOption cfg = some key →
       process_ cfg [] = ([], .ok (.keyed []))) ∧
    (mergeOption cfg = false → mapKeyOption cfg = none →
       process_ cfg [] = ([], .ok (.docs []))) := by
  refine ⟨?_, ?_, ?_⟩
  · intro h2
    simp [process_, h0, h1, h2, mergeRecords]
  · intro h2 h3
    simp [process_, h0, h1, h2, h3, mapKeyRecords, mapKeyLoop]
  · intro h2 h3
    simp [process_, h0, h1, h2, h3]

/-- Applies C10 at the merge and mapKey configs on the empty sequence. -/
theorem empty_resultset_transforms_witness :
    cfgMerge.findOne = none ∧ firstOption cfgMerge = false ∧
    mergeOption cfgMerge = true ∧
    process_ cfgMerge [] = ([], .ok (.doc [])) ∧
    mergeOption cfgMapKey = false ∧ mapKeyOption cfgMapKey = some "id" ∧
    process_ cfgMapKey [] = ([], .ok (.keyed [])) :=
  ⟨rfl, rfl, rfl,
   (empty_resultset_transforms cfgMerge "id" rfl rfl).1 rfl,
   rfl, rfl,
   (empty_resultset_transforms cfgMapKey "id" rfl rfl).2.1 rfl rfl⟩

/-- C4: with merge set (and first unset), `_process_` folds all documents
into one mapping by sequential key overwrite in record order: each key
ends up with its value in the last document containing it, and the output
is a single mapping. -/
theorem merge_folds_by_key_overwrite (cfg : MongoDBFetcherConfig)
    (records : List Doc)
    (h0 : cfg.findOne = none) (h1 : firstOption cfg = false)
    (h2 : mergeOption cfg = true) (hwf : ∀ r ∈ records, DictWF r) :
    process_ cfg records = ([], .ok (.doc (mergeRecords records))) ∧
    ∀ k, dictGet (mergeRecords records) k = lastValueAt records k :=
  ⟨by simp [process_, h0, h1, h2], dictGet_mergeRecords records hwf⟩

/-- Applies C4 to the spec's merge example sequence. -/
theorem merge_folds_by_key_overwrite_witness :
    cfgMerge.findOne = none ∧ firstOption cfgMerge = false ∧
    mergeOption cfgMerge = true ∧ (∀ r ∈ [mergeDocA, mergeDocB], DictWF r) ∧
    (process_ cfgMerge [mergeDocA, mergeDocB] =
       ([], .ok (.doc (mergeRecords [mergeDocA, mergeDocB]))) ∧
     ∀ k, dictGet (mergeRecords [mergeDocA, mergeDocB]) k =
       lastValueAt [mergeDocA, mergeDocB] k) :=
  ⟨rfl, rfl, rfl, by decide,
   merge_folds_by_key_overwrite cfgMerge [mergeDocA, mergeDocB] rfl rfl rfl (by decide)⟩

/-- C5: with mapKey set (and first, merge unset), `_process_` builds a
mapping from each document's value at the named field to the full
document, later duplicates overwriting earlier ones; when a document lacks
the field it raises a `KeyError` naming the field, which is logged and
re-raised. -/
theorem mapKey_builds_keyed_mapping (cfg : MongoDBFetcherConfig)
    (records : List Doc) (key : String)
    (h0 : cfg.findOne = none) (h1 : firstOption cfg = false)
    (h2 : mergeOption cfg = false) (h3 : mapKeyOption cfg = some key) :
    ((∀ r ∈ records, (dictGet r key).isSome) →
       ∃ m, process_ cfg records = ([], .ok (.keyed m)) ∧
         ∀ v, dictGet m v = lastRecordKeyedBy key records v) ∧
    ((∃ r ∈ records, dictGet r key = none) →
       process_ cfg records =
         ([.error "MongoDBFetchProvider error processing records",
           .error (excMessage (.keyError key))], .error (.keyError key))) := by
  constructor
  · intro hall
    obtain ⟨m, hm, hlook⟩ := mapKeyLoop_lookup key records hall []
    refine ⟨m, by simp [process_, h0, h1, h2, h3, mapKeyRecords, hm], fun v => ?_⟩
    rw [hlook v]
    cases lastRecordKeyedBy key records v with
    | some r => rfl
    | none => rfl
  · intro hex
    have herr := mapKeyLoop_error key records hex []
    simp [process_, h0, h1, h2, h3, mapKeyRecords, herr]

/-- Applies C5 to the spec's mapKey example and to a sequence with a
document lacking the field. -/
theorem mapKey_builds_keyed_mapping_witness :
    cfgMapKey.findOne = none ∧ firstOption cfgMapKey = false ∧
    mergeOption cfgMapKey = false ∧ mapKeyOption cfgMapKey = some "id" ∧
    (∀ r ∈ [sampleDoc, sampleDoc2], (dictGet r "id").isSome) ∧
    (∃ m, process_ cfgMapKey [sampleDoc, sampleDoc2] = ([], .ok (.keyed m)) ∧
       ∀ v, dictGet m v = lastRecordKeyedBy "id" [sampleDoc, sampleDoc2] v) ∧
    (∃ r ∈ [sampleDoc, mergeDocA], dictGet r "id" = none) ∧
    process_ cfgMapKey [sampleDoc, mergeDocA] =
      ([.error "MongoDBFetchProvider error processing records",
        .error (excMessage (.keyError "id"))], .error (.keyError "id")) :=
  ⟨rfl, rfl, rfl, rfl, by decide,
   (mapKey_builds_keyed_mapping cfgMapKey [sampleDoc, sampleDoc2] "id"
      rfl rfl rfl rfl).1 (by decide),
   by decide,
   (mapKey_builds_keyed_mapping cfgMapKey [sampleDoc, mergeDocA] "id"
      rfl rfl rfl rfl).2 (by decide)⟩

/-- C6: whichever subset of the transform flags is set, `_process_`
follows the strict precedence first, then merge, then mapKey, then the
default sequence output: exactly the branch of the highest-precedence set
flag determines the output. -/
theorem transform_precedence (cfg : MongoDBFetcherConfig)
    (records : List Doc) (key : String)
    (h0 : cfg.findOne = none) :
    (firstOption cfg = true →
       (process_ cfg records).2 = .ok (.doc (records.headD []))) ∧
    (firstOption cfg = false → mergeOption cfg = true →
       (process_ cfg records).2 = .ok (.doc (mergeRecords records))) ∧
    (firstOption cfg = false → mergeOption cfg = false →
       mapKeyOption cfg = some key →
       (process_ cfg records).2 = (mapKeyRecords key records).map Output.keyed) ∧
    (firstOption cfg = false → mergeOption cfg = false →
       mapKeyOption cfg = none →
       (process_ cfg records).2 = .ok (.docs records)) := by
  refine ⟨?_, ?_, ?_, ?_⟩
  · intro h1
    cases records with
    | nil => simp [process_, h0, h1]
    | cons r rs => simp [process_, h0, h1]
  · intro h1 h2
    simp [process_, h0, h1, h2]
  · intro h1 h2 h3
    cases hr : mapKeyRecords key records with
    | ok m => simp [process_, h0, h1, h2, h3, hr, Except.map]
    | error e => simp [process_, h0, h1, h2, h3, hr, Except.map]
  · intro h1 h2 h3
    simp [process_, h0, h1, h2, h3]

/-- Applies C6 at a config setting all three flags at once: the first
branch wins. -/
theorem transform_precedence_witness :
    cfgAllFlags.findOne = none ∧ firstOption cfgAllFlags = true ∧
    mergeOption cfgAllFlags = true ∧ mapKeyOption cfgAllFlags = some "id" ∧
    (process_ cfgAllFlags [sampleDoc, sampleDoc2]).2 = .ok (.doc sampleDoc) :=
  ⟨rfl, rfl, rfl, rfl,
   (transform_precedence cfgAllFlags [sampleDoc, sampleDoc2] "id" rfl).1 rfl⟩

/-- C2: for a findOne query the final output is the empty mapping when no
document matches and the matching document as a single mapping otherwise —
never null, never a sequence — whatever the transform flags say, since the
config is only constrained to select findOne. -/
theorem findOne_collapses_to_single_mapping (cfg : MongoDBFetcherConfig)
    (client : MongoClient)
    (h1 : cfg.findOne.isSome = true) (h2 : cfg.find = none)
    (h3 : cfg.aggregate = none) :
    (client.findOneResult = .ok none →
       (fetchAndProcess cfg client).2 = .ok (.doc [])) ∧
    (∀ d, client.findOneResult = .ok (some d) →
       (fetchAndProcess cfg client).2 = .ok (.doc d)) := by
  have hq : definedQueries cfg = 1 := by
    simp [definedQueries, h1, h2, h3]
  constructor
  · intro hcl
    simp [fetchAndProcess, fetch_, hq, h1, findOneBranch, hcl, process_]
  · intro d hcl
    simp [fetchAndProcess, fetch_, hq, h1, findOneBranch, hcl, process_]

/-- Applies C2 at a findOne config with an empty and a one-document
answer; the transform of the config is left at its default. -/
theorem findOne_collapses_to_single_mapping_witness :
    cfgFindOne.findOne.isSome = true ∧ cfgFindOne.find = none ∧
    cfgFindOne.aggregate = none ∧
    emptyClient.findOneResult = .ok none ∧
    (fetchAndProcess cfgFindOne emptyClient).2 = .ok (.doc []) ∧
    sampleClient.findOneResult = .ok (some sampleDoc) ∧
    (fetchAndProcess cfgFindOne sampleClient).2 = .ok (.doc sampleDoc) :=
  ⟨rfl, rfl, rfl, rfl,
   (findOne_collapses_to_single_mapping cfgFindOne emptyClient rfl rfl rfl).1 rfl,
   rfl,
   (findOne_collapses_to_single_mapping cfgFindOne sampleClient rfl rfl rfl).2
     sampleDoc rfl⟩

/-- C3: for find or aggregate with `transform.first = true`, `_fetch_`
materializes at most the first cursor element and the final output is the
first element of the unfiltered result sequence, or the empty mapping when
the result sequence is empty. -/
theorem first_takes_head_of_results (cfg : MongoDBFetcherConfig)
    (client : MongoClient) (ds : List Doc)
    (h0 : cfg.findOne = none) (hfirst : firstOption cfg = true) :
    (cfg.find.isSome = true → cfg.aggregate = none →
       client.findResult = .ok ds →
       (fetch_ (some cfg) client).2 = .ok (ds.take 1) ∧
       (ds.take 1).length ≤ 1 ∧
       (fetchAndProcess cfg client).2 = .ok (.doc (ds.headD []))) ∧
    (cfg.find = none → cfg.aggregate.isSome = true →
       client.aggregateResult = .ok ds →
       (fetch_ (some cfg) client).2 = .ok (ds.take 1) ∧
       (ds.take 1).length ≤ 1 ∧
       (fetchAndProcess cfg client).2 = .ok (.doc (ds.headD []))) := by
  constructor
  · intro h1 h2 hcl
    have hq : definedQueries cfg = 1 := by simp [definedQueries, h0, h1, h2]
    refine ⟨?_, ?_, ?_⟩
    · simp [fetch_, hq, h0, h1, findBranch, hcl, hfirst]
    · simp
    · cases ds with
      | nil =>
        simp [fetchAndProcess, fetch_, hq, h0, h1, findBranch, hcl, hfirst, process_]
      | cons d tl =>
        simp [fetchAndProcess, fetch_, hq, h0, h1, findBranch, hcl, hfirst, process_]
  · intro h1 h2 hcl
    have hq : definedQueries cfg = 1 := by simp [definedQueries, h0, h1, h2]
    refine ⟨?_, ?_, ?_⟩
    · simp [fetch_, hq, h0, h1, h2, aggregateBranch, hcl, hfirst]
    · simp
    · cases ds with
      | nil =>
        simp [fetchAndProcess, fetch_, hq, h0, h1, h2, aggregateBranch, hcl, hfirst,
          process_]
      | cons d tl =>
        simp [fetchAndProcess, fetch_, hq, h0, h1, h2, aggregateBranch, hcl, hfirst,
          process_]

/-- Applies C3 to a two-document find cursor and to an empty aggregation
cursor. -/
theorem first_takes_head_of_results_witness :
    cfgFindFirst.findOne = none ∧ firstOption cfgFindFirst = true ∧
    cfgFindFirst.find.isSome = true ∧ cfgFindFirst.aggregate = none ∧
    sampleClient.findResult = .ok [sampleDoc, sampleDoc2] ∧
    (fetchAndProcess cfgFindFirst sampleClient).2 = .ok (.doc sampleDoc) ∧
    cfgAggFirst.findOne = none ∧ firstOption cfgAggFirst = true ∧
    cfgAggFirst.find = none ∧ cfgAggFirst.aggregate.isSome = true ∧
    emptyClient.aggregateResult = .ok [] ∧
    (fetchAndProcess cfgAggFirst emptyClient).2 = .ok (.doc []) :=
  ⟨rfl, rfl, rfl, rfl, rfl,
   ((first_takes_head_of_results cfgFindFirst sampleClient [sampleDoc, sampleDoc2]
       rfl rfl).1 rfl rfl rfl).2.2,
   rfl, rfl, rfl, rfl, rfl,
   ((first_takes_head_of_results cfgAggFirst emptyClient [] rfl rfl).2 rfl rfl rfl).2.2⟩

/-- C8 counterexample: the provider's retry configuration does not treat a
connectivity fault the same way as a query error — it asks the engine to
retry the former and not the latter. -/
theorem retry_config_not_uniform :
    ¬ (RETRY_CONFIG.retryOn (.connectionFailure "connection reset") =
       RETRY_CONFIG.retryOn (.operationFailure "invalid pipeline stage")) := by
  decide

/-- C8 amended: within `_fetch_` every query-execution error is logged
with the operation name and the original exception is re-raised unchanged,
with no translation and no suppression; however the provider's
RETRY_CONFIG directs the hosting engine to retry every exception that is
not an OperationFailure, up to ten attempts, re-raising the original
afterwards — so transient faults are retried while query errors propagate
without retry. -/
theorem errors_logged_reraised_retry_policy (cfg : MongoDBFetcherConfig)
    (client : MongoClient) (e : ExcKind) :
    (cfg.findOne.isSome = true → definedQueries cfg = 1 →
       client.findOneResult = .error e →
       fetch_ (some cfg) client =
         ([.debug "MongoDBFetchProvider executing findOne query",
           .error "MongoDBFetchProvider error executing findOne query",
           .error (excMessage e)], .error e)) ∧
    (cfg.findOne = none → cfg.find.isSome = true → definedQueries cfg = 1 →
       client.findResult = .error e →
       (fetch_ (some cfg) client).2 = .error e ∧
       LogMsg.error "MongoDBFetchProvider error executing find query" ∈
         (fetch_ (some cfg) client).1 ∧
       LogMsg.error (excMessage e) ∈ (fetch_ (some cfg) client).1) ∧
    (cfg.findOne = none → cfg.find = none → cfg.aggregate.isSome = true →
       definedQueries cfg = 1 → client.aggregateResult = .error e →
       (fetch_ (some cfg) client).2 = .error e ∧
       LogMsg.error "MongoDBFetchProvider error executing aggregation pipeline" ∈
         (fetch_ (some cfg) client).1 ∧
       LogMsg.error (excMessage e) ∈ (fetch_ (some cfg) client).1) ∧
    (∀ m, RETRY_CONFIG.retryOn (.connectionFailure m) = true) ∧
    (∀ m, RETRY_CONFIG.retryOn (.operationFailure m) = false) ∧
    RETRY_CONFIG.reraise = true ∧ RETRY_CONFIG.stopAfterAttempt = 10 := by
  refine ⟨?_, ?_, ?_, fun m => rfl, fun m => rfl, rfl, rfl⟩
  · intro h1 hq hcl
    simp [fetch_, hq, h1, findOneBranch, hcl]
  · intro h1 h2 hq hcl
    refine ⟨?_, ?_, ?_⟩ <;>
      simp [fetch_, hq, h1, h2, findBranch, hcl]
  · intro h1 h2 h3 hq hcl
    refine ⟨?_, ?_, ?_⟩ <;>
      simp [fetch_, hq, h1, h2, h3, aggregateBranch, hcl]

/-- Applies the amended C8 at a findOne config whose client raises a
connectivity fault, and at a find config whose client raises an
OperationFailure. -/
theorem errors_logged_reraised_retry_policy_witness :
    cfgFindOne.findOne.isSome = true ∧ definedQueries cfgFindOne = 1 ∧
    failingClient.findOneResult = .error (.connectionFailure "connection reset") ∧
    fetch_ (some cfgFindOne) failingClient =
      ([.debug "MongoDBFetchProvider executing findOne query",
        .error "MongoDBFetchProvider error executing findOne query",
        .error (excMessage (.connectionFailure "connection reset"))],
       .error (.connectionFailure "connection reset")) ∧
    cfgDefault.findOne = none ∧ cfgDefault.find.isSome = true ∧
    definedQueries cfgDefault = 1 ∧
    failingClient.findResult = .error (.operationFailure "invalid pipeline stage") ∧
    (fetch_ (some cfgDefault) failingClient).2 =
      .error (.operationFailure "invalid pipeline stage") :=
  ⟨rfl, by decide, rfl,
   (errors_logged_reraised_retry_policy cfgFindOne failingClient
      (.connectionFailure "connection reset")).1 rfl (by decide) rfl,
   rfl, rfl, by decide, rfl,
   (((errors_logged_reraised_retry_policy cfgDefault failingClient
       (.operationFailure "invalid pipeline stage")).2.1 rfl rfl (by decide) rfl)).1⟩

end OpalFetcherMongoDB
